import Mathlib

/-!
Verification development for the plane-extraction core of the point-cloud
repository (`PointCloud.cpp`).  The RANSAC driver `PointCloud::ransac` and the
multi-plane loop `PointCloud::ransacMultiple` are embedded statement by
statement from the C++ source.  The geometric collaborators (`Plane3`, `Slab`,
`PointKDTree`) are not part of the provided source tree, so they are modelled
from the specification's contracts (§4.1, §4.2 of the design document):
the range query returns exactly the indexed points satisfying the slab's
perpendicular-distance predicate, and a degenerate (collinear-sample) plane
matches no points.  Coordinates are exact rationals; machine randomness is
abstracted as an externally supplied sampler stream whose values are reduced
into the index range of the enabled-point array, matching the contract of the
uniform integer distribution the code constructs.
-/

set_option maxHeartbeats 1000000

/-- A 3-vector with exact rational coordinates, standing for `Vector3`. -/
structure Vec3 where
  x : ℚ
  y : ℚ
  z : ℚ
  deriving DecidableEq, Repr

/-- Componentwise difference of vectors. -/
def Vec3.sub (a b : Vec3) : Vec3 := ⟨a.x - b.x, a.y - b.y, a.z - b.z⟩

/-- Euclidean inner product. -/
def Vec3.dot (a b : Vec3) : ℚ := a.x * b.x + a.y * b.y + a.z * b.z

/-- Cross product. -/
def Vec3.cross (a b : Vec3) : Vec3 :=
  ⟨a.y * b.z - a.z * b.y, a.z * b.x - a.x * b.z, a.x * b.y - a.y * b.x⟩

/-- Scalar multiple. -/
def Vec3.smul (t : ℚ) (a : Vec3) : Vec3 := ⟨t * a.x, t * a.y, t * a.z⟩

/-- The zero vector. -/
def Vec3.zero : Vec3 := ⟨0, 0, 0⟩

/-- Squared Euclidean norm. -/
def Vec3.normSq (a : Vec3) : ℚ := a.dot a

/-- One entry of the point store: position, normal and the mutable
`enabled` flag (`class Point`). -/
structure Point where
  position : Vec3
  normal : Vec3
  enabled : Bool
  deriving DecidableEq, Repr

/-- Default point value used to totalize list lookups. -/
def pt0 : Point := ⟨Vec3.zero, Vec3.zero, true⟩

/-- A plane stored as an (unnormalized) normal `n` and offset `d`;
the point set of the plane is `n ⬝ x = d`.  A zero normal encodes the
degenerate case. -/
structure Plane3 where
  n : Vec3
  d : ℚ
  deriving DecidableEq, Repr

/-- Modelled from the spec: `Plane3::fromThreePoints` fits the plane through
three points; the normal is the cross product of the two edge vectors, which
is zero exactly when the sample is degenerate (collinear). -/
def Plane3.fromThreePoints (a b c : Vec3) : Plane3 :=
  let nv := Vec3.cross (Vec3.sub b a) (Vec3.sub c a)
  ⟨nv, Vec3.dot nv a⟩

/-- Modelled from the spec: the degeneracy flag of a fitted plane (§4.2:
collinear samples "must be flagged"). -/
def Plane3.degenerate (pl : Plane3) : Bool := decide (pl.n = Vec3.zero)

/-- Modelled from the spec: orthogonal projection onto the plane (used by the
display-corner computation); the identity on the degenerate plane. -/
def Plane3.project (pl : Plane3) (p : Vec3) : Vec3 :=
  if pl.degenerate then p
  else Vec3.sub p (Vec3.smul ((Vec3.dot pl.n p - pl.d) / Vec3.normSq pl.n) pl.n)

/-- A slab: plane, thickness and derived display corners (`class Slab`). -/
structure Slab where
  plane : Plane3
  thickness : ℚ
  corners : List Vec3
  deriving DecidableEq, Repr

/-- A default-constructed slab (`Slab slab;` in `ransacMultiple`). -/
def Slab.null : Slab := ⟨⟨Vec3.zero, 0⟩, 0, []⟩

/-- Modelled from the spec (§3, §4.2): slab membership is the
perpendicular-distance test `dist(p, plane) ≤ thickness / 2`, written
denominator-free over ℚ; a degenerate plane has no well-defined distance and
matches nothing (the spec directs that degenerate fits contribute zero
inliers, matching the floating-point NaN comparison behaviour). -/
def Slab.contains (s : Slab) (p : Vec3) : Bool :=
  if s.plane.degenerate then false
  else
    decide (0 ≤ s.thickness) &&
      decide (4 * (Vec3.dot s.plane.n p - s.plane.d) ^ 2 ≤
        s.thickness ^ 2 * Vec3.normSq s.plane.n)

/-- Modelled from the spec (§4.2): `Slab::updateCorners` recomputes the
display corners purely from the plane and the inlier set (projection of the
inliers onto the plane), without affecting classification. -/
def Slab.updateCorners (s : Slab) (inliers : List Vec3) : Slab :=
  { s with corners := inliers.map (Plane3.project s.plane) }

/-- The spatial index (`PointKDTree`): a non-owning collection of indices
into the point store, built once per search. -/
structure PointKDTree where
  pts : List ℕ
  deriving DecidableEq, Repr

/-- Modelled from the spec (§4.1): `rangeQuery` returns exactly the indexed
points satisfying the slab predicate — no omissions, no extras, no
duplicates. -/
def PointKDTree.rangeQuery (kdt : PointKDTree) (store : List Point) (s : Slab) : List ℕ :=
  kdt.pts.filter (fun j => s.contains (store.getD j pt0).position)

/-- The enabled-point snapshot collected at the top of `PointCloud::ransac`
(lines 191–198: push a pointer to every enabled point, in index order). -/
def enabledIndices (points : List Point) : List ℕ :=
  (List.range points.length).filter (fun i => (points.getD i pt0).enabled)

/-- The index produced by one draw of the uniform integer distribution
`uni(0, pp.size()-1)`: an arbitrary externally supplied value reduced into
the range `[0, pp.size)` of the enabled array. -/
def sampIdx (samp : ℕ → ℕ → ℕ) (pp : List ℕ) (i k : ℕ) : ℕ :=
  samp i k % pp.length

/-- Position of the `k`-th point sampled in iteration `i`
(`pp[uni(rng)]->getPosition()`). -/
def sampledPos (samp : ℕ → ℕ → ℕ) (store : List Point) (pp : List ℕ) (i k : ℕ) : Vec3 :=
  (store.getD (pp.getD (sampIdx samp pp i k) 0) pt0).position

/-- One RANSAC iteration's candidate (lines 215–225): fit a plane through the
three sampled points, build the slab of the given thickness, and run the
range query against the index. -/
def ransacIter (samp : ℕ → ℕ → ℕ) (slab_thickness : ℚ) (kdt : PointKDTree)
    (pp : List ℕ) (store : List Point) (i : ℕ) : Slab × List ℕ :=
  let plane := Plane3.fromThreePoints (sampledPos samp store pp i 0)
    (sampledPos samp store pp i 1) (sampledPos samp store pp i 2)
  let localSlab : Slab := ⟨plane, slab_thickness, []⟩
  (localSlab, kdt.rangeQuery store localSlab)

/-- The iteration loop of `PointCloud::ransac` (lines 208–237).  State:
iteration counter `i`, remaining iterations, `maxPoints`, and the caller's
`slab` / `slab_points` reference arguments.  The store is returned alongside
the result to make the method's frame explicit (the method is `const`; no
statement writes to the point array). -/
def ransacGo (samp : ℕ → ℕ → ℕ) (slab_thickness : ℚ) (min_points : ℤ)
    (kdt : PointKDTree) (pp : List ℕ) (store : List Point) :
    ℕ → ℕ → ℤ → Slab → List ℕ → (ℤ × Slab × List ℕ) × List Point
  | _, 0, maxPoints, slab, slab_points => ((maxPoints, slab, slab_points), store)
  | i, rem + 1, maxPoints, slab, slab_points =>
    if pp.length = 0 then ((0, slab, slab_points), store)
    else
      let it := ransacIter samp slab_thickness kdt pp store i
      let numPoints : ℤ := it.2.length
      if numPoints > min_points ∧ numPoints > maxPoints then
        ransacGo samp slab_thickness min_points kdt pp store (i + 1) rem numPoints
          (Slab.updateCorners it.1 (it.2.map (fun j => (store.getD j pt0).position))) it.2
      else
        ransacGo samp slab_thickness min_points kdt pp store (i + 1) rem maxPoints slab slab_points

/-- Embedding of `PointCloud::ransac` (lines 173–238): snapshot the enabled points, build
the kd-tree once over the snapshot, then run `num_iters` iterations starting
from `maxPoints = 0` and the caller-supplied `slab` / `slab_points` values. -/
def ransac (store : List Point) (num_iters : ℤ) (slab_thickness : ℚ) (min_points : ℤ)
    (samp : ℕ → ℕ → ℕ) (slab0 : Slab) (slab_points0 : List ℕ) :
    (ℤ × Slab × List ℕ) × List Point :=
  let pp := enabledIndices store
  let kdt : PointKDTree := ⟨pp⟩
  ransacGo samp slab_thickness min_points kdt pp store 0 num_iters.toNat 0 slab0 slab_points0

/-- The inlier-disabling loop of `ransacMultiple` (lines 260–261):
`slab_points[j]->setEnabled(false)` for each accepted inlier. -/
def disablePoints (store : List Point) (sps : List ℕ) : List Point :=
  sps.foldl (fun st j => st.set j { st.getD j pt0 with enabled := false }) store

/-- The all-enabled reset at the top of `ransacMultiple` (lines 244–245). -/
def setAllEnabled (store : List Point) : List Point :=
  store.map (fun p => { p with enabled := true })

/-- The round loop of `PointCloud::ransacMultiple` (lines 248–262).  Each
round records the triple `(count, slab, slab_points)` produced by `ransac`
(`slab_points` is kept as ghost data so the per-round inlier sets can be
spoken about; the C++ discards it after disabling the points).  Stops early
when a round's count is ≤ 0. -/
def ransacMultipleGo (num_iters : ℤ) (slab_thickness : ℚ) (min_points : ℤ)
    (samps : ℕ → ℕ → ℕ → ℕ) :
    ℕ → ℕ → List Point → List (ℤ × Slab × List ℕ) × List Point
  | _, 0, store => ([], store)
  | i, rem + 1, store =>
    let r := ransac store num_iters slab_thickness min_points (samps i) Slab.null []
    if r.1.1 ≤ 0 then ([], r.2)
    else
      let next := ransacMultipleGo num_iters slab_thickness min_points samps (i + 1) rem
        (disablePoints r.2 r.1.2.2)
      (r.1 :: next.1, next.2)

/-- Embedding of `PointCloud::ransacMultiple` (lines 240–265): enable every point, clear
the caller's `slabs` vector, run up to `num_planes` rounds, and return
`(long) slabs.size()` together with the slabs and the final point store. -/
def ransacMultiple (store : List Point) (num_planes num_iters : ℤ) (slab_thickness : ℚ)
    (min_points : ℤ) (samps : ℕ → ℕ → ℕ → ℕ) (slabs0 : List Slab) :
    ℤ × List Slab × List Point :=
  let st1 := setAllEnabled store
  let cleared : List Slab := []
  let res := ransacMultipleGo num_iters slab_thickness min_points samps 0 num_planes.toNat st1
  let slabs := cleared ++ res.1.map (fun r => r.2.1)
  ((slabs.length : ℤ), slabs, res.2)

/-- The axis-aligned bounding box held by a `PointCloud` (display-only
bookkeeping; its arithmetic is out of the core's scope). -/
structure AABB where
  isNull : Bool
  lo : Vec3
  hi : Vec3
  deriving DecidableEq, Repr

/-- The `PointCloud` object: the point store plus its bounding box. -/
structure PointCloud where
  points : List Point
  bbox : AABB
  deriving DecidableEq, Repr

/-- The method `PointCloud::ransac` viewed at the object level, with the receiver
threaded through so the method's frame (no mutation of points or bbox) is a
provable statement rather than a convention. -/
def ransacPC (pc : PointCloud) (num_iters : ℤ) (slab_thickness : ℚ) (min_points : ℤ)
    (samp : ℕ → ℕ → ℕ) (slab0 : Slab) (slab_points0 : List ℕ) :
    (ℤ × Slab × List ℕ) × PointCloud :=
  let r := ransac pc.points num_iters slab_thickness min_points samp slab0 slab_points0
  (r.1, PointCloud.mk r.2 pc.bbox)

/-- Overwrite the enabled flags of a store with arbitrary per-index values,
starting at index `i` (models whatever enabled/disabled state an earlier
extraction left behind). -/
def reflagFrom (flags : ℕ → Bool) : ℕ → List Point → List Point
  | _, [] => []
  | i, p :: ps => { p with enabled := flags i } :: reflagFrom flags (i + 1) ps

/-- A store with its enabled flags overwritten by `flags`. -/
def reflag (store : List Point) (flags : ℕ → Bool) : List Point :=
  reflagFrom flags 0 store

/-- Three points are collinear when one edge vector is a scalar multiple of
the other (covers coincident sample points as well). -/
def Collinear3 (a b c : Vec3) : Prop :=
  ∃ t : ℚ, Vec3.sub c a = Vec3.smul t (Vec3.sub b a) ∨
    Vec3.sub b a = Vec3.smul t (Vec3.sub c a)

/-- Invariant carried by the `(maxPoints, slab, slab_points)` state of the
`ransac` loop: either nothing has been accepted yet (count 0, caller's
arguments untouched), or the state is exactly an accepted candidate —
count above `min_points`, positive, equal to the inlier-list length, slab
equal to the candidate slab with corners recomputed from its inlier set, and
inlier list equal to the range query of that slab over the index. -/
def GoodState (kdt : PointKDTree) (store : List Point) (slab_thickness : ℚ)
    (min_points : ℤ) (slab0 : Slab) (sps0 : List ℕ)
    (mp : ℤ) (s : Slab) (sp : List ℕ) : Prop :=
  (mp = 0 ∧ s = slab0 ∧ sp = sps0) ∨
  (min_points < mp ∧ 0 < mp ∧ mp = (sp.length : ℤ) ∧
    ∃ pl : Plane3,
      s = Slab.updateCorners ⟨pl, slab_thickness, []⟩
        (sp.map (fun j => (store.getD j pt0).position)) ∧
      sp = PointKDTree.rangeQuery kdt store ⟨pl, slab_thickness, []⟩)

/-- Concrete sampler for witnesses: iteration-independent, draws indices
0, 1, 2 for the three sample slots. -/
def demoSamp : ℕ → ℕ → ℕ := fun _ k => k

/-- Concrete per-round sampler family for witnesses. -/
def demoSamps : ℕ → ℕ → ℕ → ℕ := fun _ _ k => k

/-- Concrete store for witnesses: three non-collinear points on the plane
`z = 0`, all enabled. -/
def demoStore : List Point :=
  [⟨⟨0, 0, 0⟩, Vec3.zero, true⟩, ⟨⟨1, 0, 0⟩, Vec3.zero, true⟩,
   ⟨⟨0, 1, 0⟩, Vec3.zero, true⟩]

/-- Concrete store for witnesses: three collinear points on the x-axis. -/
def demoLine : List Point :=
  [⟨⟨0, 0, 0⟩, Vec3.zero, true⟩, ⟨⟨1, 0, 0⟩, Vec3.zero, true⟩,
   ⟨⟨2, 0, 0⟩, Vec3.zero, true⟩]

/-- Concrete store for witnesses: a single disabled point. -/
def demoDisabled : List Point := [⟨⟨0, 0, 0⟩, Vec3.zero, false⟩]

/-- Overwriting the `enabled` field twice keeps only the last value. -/
theorem point_with_enabled_twice (p : Point) (b b' : Bool) :
    ({ { p with enabled := b } with enabled := b' } : Point) = { p with enabled := b' } := rfl

/-- Membership in the enabled snapshot: in range and flagged enabled. -/
theorem mem_enabledIndices (store : List Point) (j : ℕ) :
    j ∈ enabledIndices store ↔ j < store.length ∧ (store.getD j pt0).enabled = true := by
  simp [enabledIndices, List.mem_filter, List.mem_range]

/-- Disabling inliers does not change the length of the store. -/
theorem length_disablePoints (sps : List ℕ) (store : List Point) :
    (disablePoints store sps).length = store.length := by
  induction sps generalizing store with
  | nil => rfl
  | cons a tl ih =>
    show (disablePoints (store.set a _) tl).length = _
    rw [ih, List.length_set]

/-- Cell-level description of `disablePoints`: indices in the list are
disabled (payload untouched), everything else is untouched. -/
theorem disablePoints_getElem? (sps : List ℕ) (store : List Point) (j : ℕ) :
    (disablePoints store sps)[j]? =
      if j ∈ sps then store[j]?.map (fun p => { p with enabled := false })
      else store[j]? := by
  induction sps generalizing store with
  | nil => simp [disablePoints]
  | cons a tl ih =>
    have hstep : disablePoints store (a :: tl) =
        disablePoints (store.set a { store.getD a pt0 with enabled := false }) tl := rfl
    rw [hstep, ih]
    have hset : (store.set a { store.getD a pt0 with enabled := false })[j]? =
        if a = j then store[j]?.map (fun p => { p with enabled := false })
        else store[j]? := by
      rw [List.getElem?_set]
      by_cases haj : a = j
      · subst haj
        by_cases hlt : a < store.length
        · have hx : store[a]? = some store[a] := List.getElem?_eq_getElem hlt
          rw [List.getD_eq_getElem?_getD, hx]
          simp [hlt]
        · have hx : store[a]? = none := by
            rw [List.getElem?_eq_none_iff]; omega
          simp [hlt, hx]
      · simp [haj]
    rw [hset]
    by_cases haj : a = j
    · subst haj
      by_cases hmem : a ∈ tl
      · simp only [hmem, if_true, List.mem_cons, true_or, if_pos rfl, Option.map_map]
        cases hx : store[a]? with
        | none => simp
        | some p => simp [Function.comp]
      · simp [hmem, List.mem_cons]
    · have hne : ¬ j = a := fun h => haj h.symm
      by_cases hmem : j ∈ tl <;> simp [List.mem_cons, hne, haj, hmem]

/-- Membership in the enabled snapshot after disabling a batch of inliers. -/
theorem mem_enabledIndices_disablePoints (store : List Point) (sps : List ℕ) (j : ℕ) :
    j ∈ enabledIndices (disablePoints store sps) ↔
      j ∈ enabledIndices store ∧ j ∉ sps := by
  rw [mem_enabledIndices, mem_enabledIndices, length_disablePoints,
    List.getD_eq_getElem?_getD, List.getD_eq_getElem?_getD, disablePoints_getElem?]
  by_cases hmem : j ∈ sps
  · by_cases hlt : j < store.length
    · have hp : store[j]? = some store[j] := List.getElem?_eq_getElem hlt
      simp [hmem, hp, hlt]
    · simp [hmem, hlt]
  · simp [hmem]

/-- The cross product of a vector with a scalar multiple of itself vanishes. -/
theorem cross_smul_self_right (t : ℚ) (u : Vec3) :
    Vec3.cross u (Vec3.smul t u) = Vec3.zero := by
  simp only [Vec3.cross, Vec3.smul, Vec3.zero, Vec3.mk.injEq]
  refine ⟨by ring, by ring, by ring⟩

/-- The cross product of a scalar multiple of a vector with that vector
vanishes. -/
theorem cross_smul_self_left (t : ℚ) (v : Vec3) :
    Vec3.cross (Vec3.smul t v) v = Vec3.zero := by
  simp only [Vec3.cross, Vec3.smul, Vec3.zero, Vec3.mk.injEq]
  refine ⟨by ring, by ring, by ring⟩

/-- A collinear sample produces a plane that is flagged degenerate. -/
theorem collinear_fromThreePoints_degenerate (a b c : Vec3) (h : Collinear3 a b c) :
    (Plane3.fromThreePoints a b c).degenerate = true := by
  obtain ⟨t, hcb | hbc⟩ := h
  · simp [Plane3.fromThreePoints, Plane3.degenerate, hcb, cross_smul_self_right]
  · simp [Plane3.fromThreePoints, Plane3.degenerate, hbc, cross_smul_self_left]

/-- A slab over a degenerate plane contains no point. -/
theorem degenerate_contains_false (s : Slab) (h : s.plane.degenerate = true) (p : Vec3) :
    s.contains p = false := by
  simp [Slab.contains, h]

/-- A range query against a degenerate slab returns no points. -/
theorem rangeQuery_degenerate (kdt : PointKDTree) (store : List Point) (s : Slab)
    (h : s.plane.degenerate = true) :
    kdt.rangeQuery store s = [] := by
  refine List.filter_eq_nil_iff.mpr ?_
  intro j _
  simp [degenerate_contains_false s h]

/-- Slab membership only reads the plane and the thickness, never the display
corners. -/
theorem contains_congr (s1 s2 : Slab) (hp : s1.plane = s2.plane)
    (ht : s1.thickness = s2.thickness) (p : Vec3) :
    s1.contains p = s2.contains p := by
  cases s1; cases s2
  cases hp; cases ht
  rfl

/-- Range queries only read the plane and the thickness of the query slab. -/
theorem rangeQuery_congr (kdt : PointKDTree) (store : List Point) (s1 s2 : Slab)
    (hp : s1.plane = s2.plane) (ht : s1.thickness = s2.thickness) :
    kdt.rangeQuery store s1 = kdt.rangeQuery store s2 := by
  unfold PointKDTree.rangeQuery
  refine List.filter_congr ?_
  intro j _
  rw [contains_congr s1 s2 hp ht]

/-- Updating corners keeps the plane. -/
theorem updateCorners_plane (s : Slab) (l : List Vec3) :
    (s.updateCorners l).plane = s.plane := rfl

/-- Updating corners keeps the thickness. -/
theorem updateCorners_thickness (s : Slab) (l : List Vec3) :
    (s.updateCorners l).thickness = s.thickness := rfl

/-- The `ransac` loop never writes to the point store. -/
theorem ransacGo_store (samp : ℕ → ℕ → ℕ) (t : ℚ) (m : ℤ) (kdt : PointKDTree)
    (pp : List ℕ) (store : List Point) :
    ∀ rem i mp s sp, (ransacGo samp t m kdt pp store i rem mp s sp).2 = store := by
  intro rem
  induction rem with
  | zero => intro i mp s sp; rfl
  | succ rem ih =>
    intro i mp s sp
    by_cases hpp : pp.length = 0
    · simp [ransacGo, hpp]
    · simp only [ransacGo, hpp, if_false]
      split
      · exact ih _ _ _ _
      · exact ih _ _ _ _

/-- The loop invariant of `ransac` is preserved by the whole iteration loop:
starting from a good `(maxPoints, slab, slab_points)` state, the final state
is good. -/
theorem ransacGo_goodState (samp : ℕ → ℕ → ℕ) (t : ℚ) (m : ℤ)
    (pp : List ℕ) (store : List Point) (slab0 : Slab) (sps0 : List ℕ) :
    ∀ rem i mp s sp, GoodState ⟨pp⟩ store t m slab0 sps0 mp s sp →
      GoodState ⟨pp⟩ store t m slab0 sps0
        (ransacGo samp t m ⟨pp⟩ pp store i rem mp s sp).1.1
        (ransacGo samp t m ⟨pp⟩ pp store i rem mp s sp).1.2.1
        (ransacGo samp t m ⟨pp⟩ pp store i rem mp s sp).1.2.2 := by
  intro rem
  induction rem with
  | zero => intro i mp s sp h; simpa [ransacGo] using h
  | succ rem ih =>
    intro i mp s sp h
    by_cases hpp : pp.length = 0
    · rcases h with ⟨h0, hs, hsp⟩ | ⟨hm, hpos, hlen, pl, hslab, hq⟩
      · simp only [ransacGo, hpp, if_true]
        exact Or.inl ⟨rfl, hs, hsp⟩
      · exfalso
        have hppnil : pp = [] := List.length_eq_zero.mp hpp
        have : sp = [] := by
          rw [hq]
          simp [PointKDTree.rangeQuery, hppnil]
        rw [this] at hlen
        simp at hlen
        omega
    · simp only [ransacGo, hpp, if_false]
      split
      · rename_i hacc
        apply ih
        refine Or.inr ⟨hacc.1, ?_, rfl, Plane3.fromThreePoints
          (sampledPos samp store pp i 0) (sampledPos samp store pp i 1)
          (sampledPos samp store pp i 2), rfl, rfl⟩
        have hmp0 : 0 ≤ mp := by
          rcases h with ⟨h0, _, _⟩ | ⟨_, hpos, _, _⟩
          · omega
          · omega
        exact lt_of_le_of_lt hmp0 hacc.2
      · exact ih _ _ _ _ h

/-- The final `(maxPoints, slab, slab_points)` state of a full `ransac` call
is a good state over the enabled snapshot. -/
theorem ransac_goodState (store : List Point) (n : ℤ) (t : ℚ) (m : ℤ)
    (samp : ℕ → ℕ → ℕ) (slab0 : Slab) (sps0 : List ℕ) :
    GoodState ⟨enabledIndices store⟩ store t m slab0 sps0
      (ransac store n t m samp slab0 sps0).1.1
      (ransac store n t m samp slab0 sps0).1.2.1
      (ransac store n t m samp slab0 sps0).1.2.2 := by
  have h0 : GoodState ⟨enabledIndices store⟩ store t m slab0 sps0 0 slab0 sps0 :=
    Or.inl ⟨rfl, rfl, rfl⟩
  exact ransacGo_goodState samp t m (enabledIndices store) store slab0 sps0
    n.toNat 0 0 slab0 sps0 h0

/-- A full `ransac` call returns the store it was given. -/
theorem ransac_store_eq (store : List Point) (n : ℤ) (t : ℚ) (m : ℤ)
    (samp : ℕ → ℕ → ℕ) (slab0 : Slab) (sps0 : List ℕ) :
    (ransac store n t m samp slab0 sps0).2 = store :=
  ransacGo_store samp t m ⟨enabledIndices store⟩ (enabledIndices store) store
    n.toNat 0 0 slab0 sps0

/-- With an empty enabled snapshot, `ransac` returns zero and the caller's
arguments untouched, whatever the iteration count. -/
theorem ransac_no_enabled (store : List Point) (n : ℤ) (t : ℚ) (m : ℤ)
    (samp : ℕ → ℕ → ℕ) (slab0 : Slab) (sps0 : List ℕ)
    (h : enabledIndices store = []) :
    ransac store n t m samp slab0 sps0 = ((0, slab0, sps0), store) := by
  unfold ransac
  rw [h]
  cases hn : n.toNat with
  | zero => rfl
  | succ rem => simp [ransacGo]

/-- A positive `ransac` count pins down the returned state: the count is the
length of the inlier list, which is above `min_points`; the inlier list is
the range query of the returned slab over the enabled snapshot; the returned
slab has the query thickness and its corners are the projections of the
inlier positions onto its plane. -/
theorem ransac_pos_characterization (store : List Point) (n : ℤ) (t : ℚ) (m : ℤ)
    (samp : ℕ → ℕ → ℕ) (slab0 : Slab) (sps0 : List ℕ)
    (h : 0 < (ransac store n t m samp slab0 sps0).1.1) :
    m < (ransac store n t m samp slab0 sps0).1.1 ∧
    (ransac store n t m samp slab0 sps0).1.1 =
      ((ransac store n t m samp slab0 sps0).1.2.2.length : ℤ) ∧
    (ransac store n t m samp slab0 sps0).1.2.2 =
      PointKDTree.rangeQuery ⟨enabledIndices store⟩ store
        (ransac store n t m samp slab0 sps0).1.2.1 ∧
    (ransac store n t m samp slab0 sps0).1.2.1.thickness = t ∧
    (ransac store n t m samp slab0 sps0).1.2.1.corners =
      (ransac store n t m samp slab0 sps0).1.2.2.map
        (fun j => Plane3.project (ransac store n t m samp slab0 sps0).1.2.1.plane
          (store.getD j pt0).position) := by
  rcases ransac_goodState store n t m samp slab0 sps0 with
    ⟨h0, _, _⟩ | ⟨hm, _, hlen, pl, hslab, hq⟩
  · omega
  · have hplane : (ransac store n t m samp slab0 sps0).1.2.1.plane = pl := by
      rw [hslab]; rfl
    have hthick : (ransac store n t m samp slab0 sps0).1.2.1.thickness = t := by
      rw [hslab]; rfl
    refine ⟨hm, hlen, ?_, hthick, ?_⟩
    · rw [hq]
      refine rangeQuery_congr _ _ _ _ ?_ ?_
      · rw [hplane]
      · rw [hthick]
    · rw [hslab]
      simp [Slab.updateCorners, List.map_map, Function.comp]

/-- Members of a positive `ransac` result's inlier list were enabled when the
call started. -/
theorem ransac_pos_mem_enabled (store : List Point) (n : ℤ) (t : ℚ) (m : ℤ)
    (samp : ℕ → ℕ → ℕ) (slab0 : Slab) (sps0 : List ℕ)
    (h : 0 < (ransac store n t m samp slab0 sps0).1.1) :
    ∀ j ∈ (ransac store n t m samp slab0 sps0).1.2.2, j ∈ enabledIndices store := by
  intro j hj
  have hchar := (ransac_pos_characterization store n t m samp slab0 sps0 h).2.2.1
  rw [hchar] at hj
  exact (List.mem_filter.mp hj).1

/-- The `ransac` return value is never negative, and when it is nonzero it
exceeds `min_points`. -/
theorem ransac_zero_or_above (store : List Point) (n : ℤ) (t : ℚ) (m : ℤ)
    (samp : ℕ → ℕ → ℕ) (slab0 : Slab) (sps0 : List ℕ) :
    (ransac store n t m samp slab0 sps0).1.1 = 0 ∨
      (0 < (ransac store n t m samp slab0 sps0).1.1 ∧
        m < (ransac store n t m samp slab0 sps0).1.1) := by
  rcases ransac_goodState store n t m samp slab0 sps0 with
    ⟨h0, _, _⟩ | ⟨hm, hpos, _, _⟩
  · exact Or.inl h0
  · exact Or.inr ⟨hpos, hm⟩

/-- Step equation of the round loop: a non-positive count stops the loop. -/
theorem ransacMultipleGo_succ_stop (n : ℤ) (t : ℚ) (m : ℤ) (samps : ℕ → ℕ → ℕ → ℕ)
    (i rem : ℕ) (store : List Point)
    (h : (ransac store n t m (samps i) Slab.null []).1.1 ≤ 0) :
    ransacMultipleGo n t m samps i (rem + 1) store =
      ([], (ransac store n t m (samps i) Slab.null []).2) := by
  simp [ransacMultipleGo, h]

/-- Step equation of the round loop: a positive count records the round and
recurses over the store with its inliers disabled. -/
theorem ransacMultipleGo_succ_acc (n : ℤ) (t : ℚ) (m : ℤ) (samps : ℕ → ℕ → ℕ → ℕ)
    (i rem : ℕ) (store : List Point)
    (h : ¬ (ransac store n t m (samps i) Slab.null []).1.1 ≤ 0) :
    ransacMultipleGo n t m samps i (rem + 1) store =
      ((ransac store n t m (samps i) Slab.null []).1 ::
        (ransacMultipleGo n t m samps (i + 1) rem
          (disablePoints (ransac store n t m (samps i) Slab.null []).2
            (ransac store n t m (samps i) Slab.null []).1.2.2)).1,
       (ransacMultipleGo n t m samps (i + 1) rem
          (disablePoints (ransac store n t m (samps i) Slab.null []).2
            (ransac store n t m (samps i) Slab.null []).1.2.2)).2) := by
  simp [ransacMultipleGo, h]

/-- Combined invariant of the multi-plane round loop: every recorded round
has a count above `min_points` (in particular positive) and an inlier list
drawn from the points enabled when the loop started; the rounds' inlier
lists are pairwise disjoint; at most `rem` rounds are recorded; and when
fewer than `rem` rounds are recorded, re-running `ransac` on the final store
with the next round's sampler reproduces the non-positive count that stopped
the loop. -/
theorem ransacMultipleGo_inv (n : ℤ) (t : ℚ) (m : ℤ) (samps : ℕ → ℕ → ℕ → ℕ) :
    ∀ rem i store,
      (∀ r ∈ (ransacMultipleGo n t m samps i rem store).1,
          m < r.1 ∧ 0 < r.1 ∧ ∀ j ∈ r.2.2, j ∈ enabledIndices store) ∧
      List.Pairwise (fun r1 r2 => ∀ j, j ∈ r1.2.2 → j ∉ r2.2.2)
        (ransacMultipleGo n t m samps i rem store).1 ∧
      (ransacMultipleGo n t m samps i rem store).1.length ≤ rem ∧
      ((ransacMultipleGo n t m samps i rem store).1.length < rem →
        (ransac (ransacMultipleGo n t m samps i rem store).2 n t m
          (samps (i + (ransacMultipleGo n t m samps i rem store).1.length))
          Slab.null []).1.1 ≤ 0) := by
  intro rem
  induction rem with
  | zero =>
    intro i store
    refine ⟨?_, ?_, ?_, ?_⟩ <;> simp [ransacMultipleGo]
  | succ rem ih =>
    intro i store
    have hr2 : (ransac store n t m (samps i) Slab.null []).2 = store :=
      ransac_store_eq store n t m (samps i) Slab.null []
    by_cases hstop : (ransac store n t m (samps i) Slab.null []).1.1 ≤ 0
    · rw [ransacMultipleGo_succ_stop n t m samps i rem store hstop, hr2]
      refine ⟨by simp, by simp, by simp, ?_⟩
      intro _
      simpa using hstop
    · have hpos : 0 < (ransac store n t m (samps i) Slab.null []).1.1 := by omega
      have hm : m < (ransac store n t m (samps i) Slab.null []).1.1 := by
        rcases ransac_zero_or_above store n t m (samps i) Slab.null [] with h0 | ⟨_, hm'⟩
        · omega
        · exact hm'
      have hmem_en : ∀ j ∈ (ransac store n t m (samps i) Slab.null []).1.2.2,
          j ∈ enabledIndices store :=
        ransac_pos_mem_enabled store n t m (samps i) Slab.null [] hpos
      rw [ransacMultipleGo_succ_acc n t m samps i rem store hstop, hr2]
      obtain ⟨ih1, ih2, ih3, ih4⟩ := ih (i + 1)
        (disablePoints store (ransac store n t m (samps i) Slab.null []).1.2.2)
      have hsub : ∀ j, j ∈ enabledIndices
          (disablePoints store (ransac store n t m (samps i) Slab.null []).1.2.2) →
          j ∈ enabledIndices store ∧
            j ∉ (ransac store n t m (samps i) Slab.null []).1.2.2 := by
        intro j hj
        exact (mem_enabledIndices_disablePoints store _ j).mp hj
      refine ⟨?_, ?_, ?_, ?_⟩
      · intro r hr
        rcases List.mem_cons.mp hr with hhead | htail
        · subst hhead
          exact ⟨hm, hpos, hmem_en⟩
        · obtain ⟨h1, h2, h3⟩ := ih1 r htail
          exact ⟨h1, h2, fun j hj => (hsub j (h3 j hj)).1⟩
      · rw [List.pairwise_cons]
        refine ⟨?_, ih2⟩
        intro r2 hr2' j hj hj2
        obtain ⟨_, _, h3⟩ := ih1 r2 hr2'
        exact (hsub j (h3 j hj2)).2 hj
      · simp only [List.length_cons]
        omega
      · simp only [List.length_cons]
        intro hlt
        have hlt' : (ransacMultipleGo n t m samps (i + 1) rem
            (disablePoints store (ransac store n t m (samps i) Slab.null []).1.2.2)).1.length
            < rem := by omega
        have harith : i + ((ransacMultipleGo n t m samps (i + 1) rem
            (disablePoints store (ransac store n t m (samps i) Slab.null []).1.2.2)).1.length
            + 1) = (i + 1) + (ransacMultipleGo n t m samps (i + 1) rem
            (disablePoints store (ransac store n t m (samps i) Slab.null []).1.2.2)).1.length := by
          omega
        rw [harith]
        exact ih4 hlt'

/-- C1: in every `ransac` iteration that samples (enabled set non-empty), a
candidate slab becomes the new best exactly when its range-query inlier count
strictly exceeds `min_points` and strictly exceeds the best count so far; on
acceptance the recorded state is exactly the candidate slab with corners
recomputed from its inlier set, the inlier list and its count; a candidate
whose count equals the current best leaves the state unchanged (first-found
wins ties). -/
theorem ransac_best_update (samp : ℕ → ℕ → ℕ) (t : ℚ) (m : ℤ) (kdt : PointKDTree)
    (pp : List ℕ) (store : List Point) (i rem : ℕ) (mp : ℤ) (s : Slab) (sp : List ℕ)
    (h : pp ≠ []) :
    (ransacGo samp t m kdt pp store i (rem + 1) mp s sp =
      if ((ransacIter samp t kdt pp store i).2.length : ℤ) > m ∧
          ((ransacIter samp t kdt pp store i).2.length : ℤ) > mp
      then ransacGo samp t m kdt pp store (i + 1) rem
        ((ransacIter samp t kdt pp store i).2.length : ℤ)
        (Slab.updateCorners (ransacIter samp t kdt pp store i).1
          ((ransacIter samp t kdt pp store i).2.map (fun j => (store.getD j pt0).position)))
        (ransacIter samp t kdt pp store i).2
      else ransacGo samp t m kdt pp store (i + 1) rem mp s sp) ∧
    (((ransacIter samp t kdt pp store i).2.length : ℤ) = mp →
      ransacGo samp t m kdt pp store i (rem + 1) mp s sp =
        ransacGo samp t m kdt pp store (i + 1) rem mp s sp) := by
  have hpp : ¬ pp.length = 0 := by simpa [List.length_eq_zero] using h
  have hmain : ransacGo samp t m kdt pp store i (rem + 1) mp s sp =
      if ((ransacIter samp t kdt pp store i).2.length : ℤ) > m ∧
          ((ransacIter samp t kdt pp store i).2.length : ℤ) > mp
      then ransacGo samp t m kdt pp store (i + 1) rem
        ((ransacIter samp t kdt pp store i).2.length : ℤ)
        (Slab.updateCorners (ransacIter samp t kdt pp store i).1
          ((ransacIter samp t kdt pp store i).2.map (fun j => (store.getD j pt0).position)))
        (ransacIter samp t kdt pp store i).2
      else ransacGo samp t m kdt pp store (i + 1) rem mp s sp := by
    simp only [ransacGo, hpp, if_false]
  refine ⟨hmain, ?_⟩
  intro htie
  rw [hmain, if_neg]
  intro hc
  omega

/-- Witness for C1 at a concrete store and sampler: the non-empty enabled
snapshot `[0, 1, 2]` of the demo store, with the step equation instantiated
there. -/
theorem ransac_best_update_witness :
    (([0, 1, 2] : List ℕ) ≠ []) ∧
    ((ransacGo demoSamp 1 0 ⟨[0, 1, 2]⟩ [0, 1, 2] demoStore 0 (0 + 1) 0 Slab.null [] =
      if ((ransacIter demoSamp 1 ⟨[0, 1, 2]⟩ [0, 1, 2] demoStore 0).2.length : ℤ) > 0 ∧
          ((ransacIter demoSamp 1 ⟨[0, 1, 2]⟩ [0, 1, 2] demoStore 0).2.length : ℤ) > 0
      then ransacGo demoSamp 1 0 ⟨[0, 1, 2]⟩ [0, 1, 2] demoStore (0 + 1) 0
        ((ransacIter demoSamp 1 ⟨[0, 1, 2]⟩ [0, 1, 2] demoStore 0).2.length : ℤ)
        (Slab.updateCorners (ransacIter demoSamp 1 ⟨[0, 1, 2]⟩ [0, 1, 2] demoStore 0).1
          ((ransacIter demoSamp 1 ⟨[0, 1, 2]⟩ [0, 1, 2] demoStore 0).2.map
            (fun j => (demoStore.getD j pt0).position)))
        (ransacIter demoSamp 1 ⟨[0, 1, 2]⟩ [0, 1, 2] demoStore 0).2
      else ransacGo demoSamp 1 0 ⟨[0, 1, 2]⟩ [0, 1, 2] demoStore (0 + 1) 0 0 Slab.null []) ∧
    (((ransacIter demoSamp 1 ⟨[0, 1, 2]⟩ [0, 1, 2] demoStore 0).2.length : ℤ) = 0 →
      ransacGo demoSamp 1 0 ⟨[0, 1, 2]⟩ [0, 1, 2] demoStore 0 (0 + 1) 0 Slab.null [] =
        ransacGo demoSamp 1 0 ⟨[0, 1, 2]⟩ [0, 1, 2] demoStore (0 + 1) 0 0 Slab.null [])) :=
  ⟨by decide, ransac_best_update demoSamp 1 0 ⟨[0, 1, 2]⟩ [0, 1, 2] demoStore 0 0 0
    Slab.null [] (by decide)⟩

/-- Evaluation: the plane through the three demo positions is `z = 0`. -/
theorem demo_plane_eval :
    Plane3.fromThreePoints ⟨0, 0, 0⟩ ⟨1, 0, 0⟩ ⟨0, 1, 0⟩ = ⟨⟨0, 0, 1⟩, 0⟩ := by
  simp only [Plane3.fromThreePoints, Vec3.cross, Vec3.sub, Vec3.dot]
  norm_num

/-- Evaluation: the thickness-1 slab around `z = 0` contains every point of
that plane. -/
theorem demo_contains_z0 (a b : ℚ) (c : List Vec3) :
    Slab.contains ⟨⟨⟨0, 0, 1⟩, 0⟩, 1, c⟩ ⟨a, b, 0⟩ = true := by
  simp only [Slab.contains, Plane3.degenerate, Vec3.zero, Vec3.dot, Vec3.normSq]
  norm_num [Vec3.mk.injEq]

/-- Evaluation: the demo range query returns all three demo points. -/
theorem demo_rangeQuery_eval (c : List Vec3) :
    PointKDTree.rangeQuery ⟨[0, 1, 2]⟩ demoStore ⟨⟨⟨0, 0, 1⟩, 0⟩, 1, c⟩ = [0, 1, 2] := by
  simp only [PointKDTree.rangeQuery, List.filter]
  have h0 : (demoStore.getD 0 pt0).position = ⟨0, 0, 0⟩ := rfl
  have h1 : (demoStore.getD 1 pt0).position = ⟨1, 0, 0⟩ := rfl
  have h2 : (demoStore.getD 2 pt0).position = ⟨0, 1, 0⟩ := rfl
  rw [h0, h1, h2, demo_contains_z0, demo_contains_z0, demo_contains_z0]

/-- Evaluation: the first demo iteration's candidate. -/
theorem demo_iter_eval :
    ransacIter demoSamp 1 ⟨[0, 1, 2]⟩ [0, 1, 2] demoStore 0 =
      (⟨⟨⟨0, 0, 1⟩, 0⟩, 1, []⟩, [0, 1, 2]) := by
  have h0 : sampledPos demoSamp demoStore [0, 1, 2] 0 0 = ⟨0, 0, 0⟩ := rfl
  have h1 : sampledPos demoSamp demoStore [0, 1, 2] 0 1 = ⟨1, 0, 0⟩ := rfl
  have h2 : sampledPos demoSamp demoStore [0, 1, 2] 0 2 = ⟨0, 1, 0⟩ := rfl
  simp only [ransacIter, h0, h1, h2, demo_plane_eval]
  rw [demo_rangeQuery_eval]

/-- Evaluation: projecting a point of the plane `z = 0` onto it is the
identity. -/
theorem demo_project_eval (a b : ℚ) :
    Plane3.project ⟨⟨0, 0, 1⟩, 0⟩ ⟨a, b, 0⟩ = ⟨a, b, 0⟩ := by
  simp only [Plane3.project, Plane3.degenerate, Vec3.zero, Vec3.dot, Vec3.normSq,
    Vec3.sub, Vec3.smul]
  norm_num [Vec3.mk.injEq]

/-- Evaluation: one full `ransac` call on the demo store accepts all three
points with recomputed corners. -/
theorem demo_ransac_eval :
    ransac demoStore 1 1 0 demoSamp Slab.null [] =
      ((3, ⟨⟨⟨0, 0, 1⟩, 0⟩, 1, [⟨0, 0, 0⟩, ⟨1, 0, 0⟩, ⟨0, 1, 0⟩]⟩, [0, 1, 2]), demoStore) := by
  have hen : enabledIndices demoStore = [0, 1, 2] := rfl
  show ransacGo demoSamp 1 0 ⟨enabledIndices demoStore⟩ (enabledIndices demoStore)
    demoStore 0 (1 : ℤ).toNat 0 Slab.null [] = _
  rw [hen]
  have ht : (1 : ℤ).toNat = 0 + 1 := rfl
  rw [ht]
  simp only [ransacGo, demo_iter_eval]
  norm_num [Slab.updateCorners]
  have hp0 : (demoStore[0]?.getD pt0).position = (⟨0, 0, 0⟩ : Vec3) := rfl
  have hp1 : (demoStore[1]?.getD pt0).position = (⟨1, 0, 0⟩ : Vec3) := rfl
  have hp2 : (demoStore[2]?.getD pt0).position = (⟨0, 1, 0⟩ : Vec3) := rfl
  rw [hp0, hp1, hp2]
  exact ⟨demo_project_eval 0 0, demo_project_eval 1 0, demo_project_eval 0 1⟩

/-- C2: across the rounds of a `ransacMultiple` call, the accepted slabs'
inlier sets are pairwise disjoint and drawn from the original point set;
every round's `ransac` only gathers points enabled at its start, and a
store's points are no longer enabled once `disablePoints` has cleared an
accepted slab's inliers. -/
theorem ransacMultiple_disjoint_rounds (store : List Point) (N n : ℤ) (t : ℚ) (m : ℤ)
    (samps : ℕ → ℕ → ℕ → ℕ) :
    List.Pairwise (fun r1 r2 => ∀ j, j ∈ r1.2.2 → j ∉ r2.2.2)
      (ransacMultipleGo n t m samps 0 N.toNat (setAllEnabled store)).1 ∧
    (∀ r ∈ (ransacMultipleGo n t m samps 0 N.toNat (setAllEnabled store)).1,
      ∀ j ∈ r.2.2, j < store.length ∧ j ∈ enabledIndices (setAllEnabled store)) ∧
    (∀ st (samp' : ℕ → ℕ → ℕ), 0 < (ransac st n t m samp' Slab.null []).1.1 →
      ∀ j ∈ (ransac st n t m samp' Slab.null []).1.2.2, j ∈ enabledIndices st) ∧
    (∀ (st : List Point) (sps : List ℕ), ∀ j ∈ sps,
      j ∉ enabledIndices (disablePoints st sps)) := by
  obtain ⟨h1, h2, _, _⟩ := ransacMultipleGo_inv n t m samps N.toNat 0 (setAllEnabled store)
  refine ⟨h2, ?_, ?_, ?_⟩
  · intro r hr j hj
    have hmem := (h1 r hr).2.2 j hj
    refine ⟨?_, hmem⟩
    have := (mem_enabledIndices (setAllEnabled store) j).mp hmem
    have hlen : (setAllEnabled store).length = store.length := List.length_map _ _
    omega
  · intro st samp' hpos j hj
    exact ransac_pos_mem_enabled st n t m samp' Slab.null [] hpos j hj
  · intro st sps j hj hcontra
    exact ((mem_enabledIndices_disablePoints st sps j).mp hcontra).2 hj

/-- Witness for C2: a positive demo `ransac` call draws only enabled points,
and disabling index 0 removes it from the enabled snapshot. -/
theorem ransacMultiple_disjoint_rounds_witness :
    (0 < (ransac demoStore 1 1 0 (demoSamps 0) Slab.null []).1.1) ∧
    ((0 : ℕ) ∈ ([0] : List ℕ)) ∧
    (0 ∈ enabledIndices demoStore) ∧
    (0 ∉ enabledIndices (disablePoints demoStore [0])) := by
  have hpos : 0 < (ransac demoStore 1 1 0 (demoSamps 0) Slab.null []).1.1 := by
    have hds : demoSamps 0 = demoSamp := rfl
    rw [hds, demo_ransac_eval]
    norm_num
  refine ⟨hpos, by decide, ?_, ?_⟩
  · have hds : demoSamps 0 = demoSamp := rfl
    have hmem := (ransacMultiple_disjoint_rounds demoStore 2 1 1 0 demoSamps).2.2.1
      demoStore (demoSamps 0) hpos
    rw [hds, demo_ransac_eval] at hmem
    exact hmem 0 (by decide)
  · exact (ransacMultiple_disjoint_rounds demoStore 2 1 1 0 demoSamps).2.2.2
      demoStore [0] 0 (by decide)

/-- C3: `ransacMultiple` with `num_planes = N` returns at most `N` slabs, the
returned count is the number of returned slabs, every accepted round's count
is positive and above `min_points`, stopping early reproduces a non-positive
`ransac` count at the stopped round, and any `ransac` return value is either
zero or strictly above `min_points`. -/
theorem ransacMultiple_bounds (store : List Point) (N n : ℤ) (t : ℚ) (m : ℤ)
    (samps : ℕ → ℕ → ℕ → ℕ) (slabs0 : List Slab) :
    (ransacMultiple store N n t m samps slabs0).2.1.length ≤ N.toNat ∧
    (ransacMultiple store N n t m samps slabs0).1 =
      ((ransacMultiple store N n t m samps slabs0).2.1.length : ℤ) ∧
    (∀ r ∈ (ransacMultipleGo n t m samps 0 N.toNat (setAllEnabled store)).1,
      0 < r.1 ∧ m < r.1) ∧
    ((ransacMultiple store N n t m samps slabs0).2.1.length < N.toNat →
      (ransac (ransacMultipleGo n t m samps 0 N.toNat (setAllEnabled store)).2 n t m
        (samps (ransacMultiple store N n t m samps slabs0).2.1.length)
        Slab.null []).1.1 ≤ 0) ∧
    (∀ (st : List Point) (samp' : ℕ → ℕ → ℕ) (s0 : Slab) (sp0 : List ℕ),
      (ransac st n t m samp' s0 sp0).1.1 = 0 ∨
        m < (ransac st n t m samp' s0 sp0).1.1) := by
  obtain ⟨h1, _, h3, h4⟩ := ransacMultipleGo_inv n t m samps N.toNat 0 (setAllEnabled store)
  have hlen : (ransacMultiple store N n t m samps slabs0).2.1.length =
      (ransacMultipleGo n t m samps 0 N.toNat (setAllEnabled store)).1.length := by
    simp [ransacMultiple]
  refine ⟨?_, ?_, ?_, ?_, ?_⟩
  · rw [hlen]; exact h3
  · simp [ransacMultiple]
  · intro r hr
    obtain ⟨ha, hb, _⟩ := h1 r hr
    exact ⟨hb, ha⟩
  · intro hlt
    rw [hlen] at hlt ⊢
    simpa using h4 hlt
  · intro st samp' s0 sp0
    rcases ransac_zero_or_above st n t m samp' s0 sp0 with h | ⟨_, h⟩
    · exact Or.inl h
    · exact Or.inr h

/-- Witness for C3 on the empty cloud: zero rounds are accepted, which is
fewer than the requested one plane, and re-running `ransac` at the stopped
round indeed yields a non-positive count. -/
theorem ransacMultiple_bounds_witness :
    ((ransacMultiple [] 1 1 1 0 demoSamps []).2.1.length < (1 : ℤ).toNat) ∧
    (ransac (ransacMultipleGo 1 1 0 demoSamps 0 (1 : ℤ).toNat (setAllEnabled [])).2 1 1 0
      (demoSamps (ransacMultiple [] 1 1 1 0 demoSamps []).2.1.length)
      Slab.null []).1.1 ≤ 0 :=
  ⟨by decide, (ransacMultiple_bounds [] 1 1 1 0 demoSamps []).2.2.2.1 (by decide)⟩

/-- C4: empty input is recoverable — `ransac` with no enabled points returns
0 with the caller's slab and inlier-list arguments untouched; `ransac` with
`num_iters ≤ 0` likewise returns 0 and leaves them untouched; and
`ransacMultiple` on an empty cloud returns count 0 and no slabs. -/
theorem ransac_empty_inputs (store : List Point) (n N : ℤ) (t : ℚ) (m : ℤ)
    (samp : ℕ → ℕ → ℕ) (samps : ℕ → ℕ → ℕ → ℕ) (slab0 : Slab) (sps0 : List ℕ)
    (slabs0 : List Slab) :
    (enabledIndices store = [] →
      ransac store n t m samp slab0 sps0 = ((0, slab0, sps0), store)) ∧
    (n ≤ 0 → ransac store n t m samp slab0 sps0 = ((0, slab0, sps0), store)) ∧
    ransacMultiple [] N n t m samps slabs0 = ((0 : ℤ), [], []) := by
  refine ⟨ransac_no_enabled store n t m samp slab0 sps0, ?_, ?_⟩
  · intro hn
    unfold ransac
    rw [Int.toNat_eq_zero.mpr hn]
    rfl
  · have hemp : enabledIndices ([] : List Point) = [] := rfl
    have hr := ransac_no_enabled [] n t m (samps 0) Slab.null [] hemp
    have hall : setAllEnabled ([] : List Point) = [] := rfl
    have hgo : (ransacMultipleGo n t m samps 0 N.toNat []).1 = [] ∧
        (ransacMultipleGo n t m samps 0 N.toNat []).2 = [] := by
      cases hN : N.toNat with
      | zero => exact ⟨rfl, rfl⟩
      | succ rem =>
        have hstop : (ransac [] n t m (samps 0) Slab.null []).1.1 ≤ 0 := by
          rw [hr]
        rw [ransacMultipleGo_succ_stop n t m samps 0 rem [] hstop, hr]
        exact ⟨rfl, rfl⟩
    simp [ransacMultiple, hall, hgo.1, hgo.2]

/-- Witness for C4: the single-disabled-point store has an empty enabled
snapshot, and a negative iteration count, both yielding the untouched-zero
result; the empty cloud yields the empty extraction. -/
theorem ransac_empty_inputs_witness :
    (enabledIndices demoDisabled = []) ∧
    ((-1 : ℤ) ≤ 0) ∧
    (ransac demoDisabled 5 1 2 demoSamp Slab.null [] = ((0, Slab.null, []), demoDisabled)) ∧
    (ransac demoDisabled (-1) 1 2 demoSamp Slab.null [] = ((0, Slab.null, []), demoDisabled)) ∧
    ransacMultiple [] 3 5 1 2 demoSamps [] = ((0 : ℤ), [], []) :=
  ⟨by decide, by decide,
    (ransac_empty_inputs demoDisabled 5 3 1 2 demoSamp demoSamps Slab.null [] []).1 (by decide),
    (ransac_empty_inputs demoDisabled (-1) 3 1 2 demoSamp demoSamps Slab.null [] []).2.1
      (by decide),
    (ransac_empty_inputs demoDisabled 5 3 1 2 demoSamp demoSamps Slab.null [] []).2.2⟩

/-- C5: an iteration whose three sampled points are collinear produces a
plane flagged degenerate, its range query is empty (it contributes zero
inliers rather than crashing), and — whenever the best count so far is
non-negative, as it always is in a run — the iteration leaves the recorded
best state unchanged, so a degenerate sample never becomes the best slab. -/
theorem ransac_degenerate_no_candidate (samp : ℕ → ℕ → ℕ) (t : ℚ) (m : ℤ)
    (kdt : PointKDTree) (pp : List ℕ) (store : List Point) (i rem : ℕ)
    (mp : ℤ) (s : Slab) (sp : List ℕ)
    (hcol : Collinear3 (sampledPos samp store pp i 0) (sampledPos samp store pp i 1)
      (sampledPos samp store pp i 2))
    (hmp : 0 ≤ mp) :
    (ransacIter samp t kdt pp store i).1.plane.degenerate = true ∧
    (ransacIter samp t kdt pp store i).2 = [] ∧
    (pp ≠ [] → ransacGo samp t m kdt pp store i (rem + 1) mp s sp =
      ransacGo samp t m kdt pp store (i + 1) rem mp s sp) := by
  have hdeg : (ransacIter samp t kdt pp store i).1.plane.degenerate = true :=
    collinear_fromThreePoints_degenerate _ _ _ hcol
  have hnil : (ransacIter samp t kdt pp store i).2 = [] :=
    rangeQuery_degenerate kdt store _ hdeg
  refine ⟨hdeg, hnil, ?_⟩
  intro hpp
  have hpp' : ¬ pp.length = 0 := by simpa [List.length_eq_zero] using hpp
  simp only [ransacGo, hpp', if_false]
  rw [if_neg]
  rw [hnil]
  intro hc
  have : (0 : ℤ) > mp := by simpa using hc.2
  omega

/-- Witness for C5: the three collinear demo positions on the x-axis make the
fitted plane degenerate, the candidate empty, and the step a no-op. -/
theorem ransac_degenerate_no_candidate_witness :
    Collinear3 (sampledPos demoSamp demoLine [0, 1, 2] 0 0)
      (sampledPos demoSamp demoLine [0, 1, 2] 0 1)
      (sampledPos demoSamp demoLine [0, 1, 2] 0 2) ∧
    ((0 : ℤ) ≤ 0) ∧
    (ransacIter demoSamp 1 ⟨[0, 1, 2]⟩ [0, 1, 2] demoLine 0).1.plane.degenerate = true ∧
    (ransacIter demoSamp 1 ⟨[0, 1, 2]⟩ [0, 1, 2] demoLine 0).2 = [] ∧
    ransacGo demoSamp 1 0 ⟨[0, 1, 2]⟩ [0, 1, 2] demoLine 0 (0 + 1) 0 Slab.null [] =
      ransacGo demoSamp 1 0 ⟨[0, 1, 2]⟩ [0, 1, 2] demoLine (0 + 1) 0 0 Slab.null [] := by
  have hcol : Collinear3 (sampledPos demoSamp demoLine [0, 1, 2] 0 0)
      (sampledPos demoSamp demoLine [0, 1, 2] 0 1)
      (sampledPos demoSamp demoLine [0, 1, 2] 0 2) := by
    refine ⟨2, Or.inl ?_⟩
    have ha : sampledPos demoSamp demoLine [0, 1, 2] 0 0 = ⟨0, 0, 0⟩ := rfl
    have hb : sampledPos demoSamp demoLine [0, 1, 2] 0 1 = ⟨1, 0, 0⟩ := rfl
    have hc : sampledPos demoSamp demoLine [0, 1, 2] 0 2 = ⟨2, 0, 0⟩ := rfl
    rw [ha, hb, hc]
    simp only [Vec3.sub, Vec3.smul]
    norm_num
  have h := ransac_degenerate_no_candidate demoSamp 1 0 ⟨[0, 1, 2]⟩ [0, 1, 2] demoLine
    0 0 0 Slab.null [] hcol (by decide)
  exact ⟨hcol, by decide, h.1, h.2.1, h.2.2 (by decide)⟩

/-- Applying the all-enabled reset after arbitrary reflagging gives the same
store as resetting the original. -/
theorem setAllEnabled_reflagFrom (flags : ℕ → Bool) :
    ∀ (ps : List Point) (i : ℕ), setAllEnabled (reflagFrom flags i ps) = setAllEnabled ps := by
  intro ps
  induction ps with
  | nil => intro i; rfl
  | cons p tl ih =>
    intro i
    have htl := ih (i + 1)
    simp only [reflagFrom, setAllEnabled, List.map_cons] at htl ⊢
    rw [htl]

/-- C6: `ransacMultiple` begins by enabling every point, so its result is
identical whatever enabled/disabled flags an earlier call left behind, and
after the reset every point is flagged enabled. -/
theorem ransacMultiple_resets_enabled (store : List Point) (flags : ℕ → Bool)
    (N n : ℤ) (t : ℚ) (m : ℤ) (samps : ℕ → ℕ → ℕ → ℕ) (slabs0 : List Slab) :
    ransacMultiple (reflag store flags) N n t m samps slabs0 =
      ransacMultiple store N n t m samps slabs0 ∧
    (∀ j, j < store.length → ((setAllEnabled store).getD j pt0).enabled = true) := by
  constructor
  · unfold ransacMultiple
    rw [show setAllEnabled (reflag store flags) = setAllEnabled store from
      setAllEnabled_reflagFrom flags store 0]
  · intro j hj
    have hp : store[j]? = some store[j] := List.getElem?_eq_getElem hj
    rw [List.getD_eq_getElem?_getD]
    simp [setAllEnabled, hp]

/-- Witness for C6: scrambling the demo store's flags to all-false does not
change the extraction, and after the reset the first point is enabled. -/
theorem ransacMultiple_resets_enabled_witness :
    ransacMultiple (reflag demoStore (fun _ => false)) 2 1 1 0 demoSamps [] =
      ransacMultiple demoStore 2 1 1 0 demoSamps [] ∧
    ((0 : ℕ) < demoStore.length ∧ ((setAllEnabled demoStore).getD 0 pt0).enabled = true) :=
  ⟨(ransacMultiple_resets_enabled demoStore (fun _ => false) 2 1 1 0 demoSamps []).1,
    by decide,
    (ransacMultiple_resets_enabled demoStore (fun _ => false) 2 1 1 0 demoSamps []).2
      0 (by decide)⟩

/-- C7: a `ransac` call has no side effects on the point cloud — the point
store (positions, normals, enabled flags) and the bounding box are returned
exactly as given; its only outputs are the return value and the
slab/slab-points results, and those are computed from the kd-tree built once
over the enabled snapshot. -/
theorem ransacPC_no_side_effects (pc : PointCloud) (n : ℤ) (t : ℚ) (m : ℤ)
    (samp : ℕ → ℕ → ℕ) (slab0 : Slab) (sps0 : List ℕ) :
    (ransacPC pc n t m samp slab0 sps0).2 = pc ∧
    (ransac pc.points n t m samp slab0 sps0).2 = pc.points ∧
    (ransacPC pc n t m samp slab0 sps0).1 =
      (ransacGo samp t m ⟨enabledIndices pc.points⟩ (enabledIndices pc.points)
        pc.points 0 n.toNat 0 slab0 sps0).1 := by
  have hs : (ransac pc.points n t m samp slab0 sps0).2 = pc.points :=
    ransac_store_eq pc.points n t m samp slab0 sps0
  refine ⟨?_, hs, rfl⟩
  show PointCloud.mk (ransac pc.points n t m samp slab0 sps0).2 pc.bbox = pc
  rw [hs]

/-- C8: when the enabled set is non-empty, every sampled index lies inside
its bounds; when it is empty, `ransac` returns zero (with untouched
arguments) without ever constructing the index distribution. -/
theorem ransac_sampling_safe (samp : ℕ → ℕ → ℕ) (pp : List ℕ) (i k : ℕ)
    (store : List Point) (n : ℤ) (t : ℚ) (m : ℤ) (slab0 : Slab) (sps0 : List ℕ) :
    (pp ≠ [] → sampIdx samp pp i k < pp.length) ∧
    (enabledIndices store = [] →
      ransac store n t m samp slab0 sps0 = ((0, slab0, sps0), store)) := by
  constructor
  · intro hpp
    have hlen : 0 < pp.length := List.length_pos.mpr hpp
    exact Nat.mod_lt _ hlen
  · exact ransac_no_enabled store n t m samp slab0 sps0

/-- Witness for C8: a singleton enabled array keeps any sampled index below
its length, and the disabled demo store returns zero untouched. -/
theorem ransac_sampling_safe_witness :
    (([5] : List ℕ) ≠ []) ∧
    (sampIdx demoSamp [5] 0 1 < ([5] : List ℕ).length) ∧
    (enabledIndices demoDisabled = []) ∧
    ransac demoDisabled 7 1 0 demoSamp Slab.null [] = ((0, Slab.null, []), demoDisabled) :=
  ⟨by decide,
    (ransac_sampling_safe demoSamp [5] 0 1 demoDisabled 7 1 0 Slab.null []).1 (by decide),
    by decide,
    (ransac_sampling_safe demoSamp [5] 0 1 demoDisabled 7 1 0 Slab.null []).2 (by decide)⟩

/-- C9: whenever `ransac` returns a positive count `k`, the returned inlier
list has exactly `k` entries, each referring to a point of the store that was
enabled at the start of the call; `k` is the range-query count of the
returned slab against the enabled snapshot (the list is that query); and the
returned slab's corners are recomputed from exactly that inlier set. -/
theorem ransac_positive_output (store : List Point) (n : ℤ) (t : ℚ) (m : ℤ)
    (samp : ℕ → ℕ → ℕ) (slab0 : Slab) (sps0 : List ℕ)
    (h : 0 < (ransac store n t m samp slab0 sps0).1.1) :
    ((ransac store n t m samp slab0 sps0).1.2.2.length : ℤ) =
      (ransac store n t m samp slab0 sps0).1.1 ∧
    (∀ j ∈ (ransac store n t m samp slab0 sps0).1.2.2,
      j < store.length ∧ (store.getD j pt0).enabled = true) ∧
    (ransac store n t m samp slab0 sps0).1.2.2 =
      PointKDTree.rangeQuery ⟨enabledIndices store⟩ store
        (ransac store n t m samp slab0 sps0).1.2.1 ∧
    (ransac store n t m samp slab0 sps0).1.2.1.corners =
      (ransac store n t m samp slab0 sps0).1.2.2.map
        (fun j => Plane3.project (ransac store n t m samp slab0 sps0).1.2.1.plane
          (store.getD j pt0).position) := by
  obtain ⟨_, hlen, hq, _, hcorners⟩ :=
    ransac_pos_characterization store n t m samp slab0 sps0 h
  refine ⟨hlen.symm, ?_, hq, hcorners⟩
  intro j hj
  exact (mem_enabledIndices store j).mp
    (ransac_pos_mem_enabled store n t m samp slab0 sps0 h j hj)

/-- Witness for C9: the demo `ransac` call returns count 3, so its output is
pinned down by the positive-count characterization. -/
theorem ransac_positive_output_witness :
    (0 < (ransac demoStore 1 1 0 demoSamp Slab.null []).1.1) ∧
    (((ransac demoStore 1 1 0 demoSamp Slab.null []).1.2.2.length : ℤ) =
      (ransac demoStore 1 1 0 demoSamp Slab.null []).1.1 ∧
    (∀ j ∈ (ransac demoStore 1 1 0 demoSamp Slab.null []).1.2.2,
      j < demoStore.length ∧ (demoStore.getD j pt0).enabled = true) ∧
    (ransac demoStore 1 1 0 demoSamp Slab.null []).1.2.2 =
      PointKDTree.rangeQuery ⟨enabledIndices demoStore⟩ demoStore
        (ransac demoStore 1 1 0 demoSamp Slab.null []).1.2.1 ∧
    (ransac demoStore 1 1 0 demoSamp Slab.null []).1.2.1.corners =
      (ransac demoStore 1 1 0 demoSamp Slab.null []).1.2.2.map
        (fun j => Plane3.project (ransac demoStore 1 1 0 demoSamp Slab.null []).1.2.1.plane
          (demoStore.getD j pt0).position)) := by
  have hpos : 0 < (ransac demoStore 1 1 0 demoSamp Slab.null []).1.1 := by
    rw [demo_ransac_eval]
    norm_num
  exact ⟨hpos, ransac_positive_output demoStore 1 1 0 demoSamp Slab.null [] hpos⟩

/-- C10: `ransacMultiple` clears the caller-supplied slabs vector before the
round loop, so its result does not depend on that vector's prior content; on
return the vector holds exactly the accepted rounds' slabs in discovery
order, and the returned count equals the vector's final length. -/
theorem ransacMultiple_clears_slabs (store : List Point) (N n : ℤ) (t : ℚ) (m : ℤ)
    (samps : ℕ → ℕ → ℕ → ℕ) (slabs0 slabs0' : List Slab) :
    ransacMultiple store N n t m samps slabs0 =
      ransacMultiple store N n t m samps slabs0' ∧
    (ransacMultiple store N n t m samps slabs0).1 =
      ((ransacMultiple store N n t m samps slabs0).2.1.length : ℤ) ∧
    (ransacMultiple store N n t m samps slabs0).2.1 =
      (ransacMultipleGo n t m samps 0 N.toNat (setAllEnabled store)).1.map
        (fun r => r.2.1) := by
  refine ⟨rfl, rfl, ?_⟩
  simp [ransacMultiple]
